import Mathlib


/-!
Verification development for the Lutine Events Calendar intake app
(single source file `src/app.py`, a Streamlit form that mirrors events
between a Supabase `events` table and an Outlook calendar through the
Microsoft Graph API).

The pure computational core of the app is embedded shallowly below:

* proleptic-Gregorian date arithmetic standing in for Python
  `datetime.date` / `timedelta` arithmetic,
* `build_graph_event_payload` and the create-submission handler
  (`src/app.py` lines 258-305 and 664-875),
* `map_graph_event_to_row_updates` and `_parse_graph_dt_to_utc`
  (lines 432-485) together with the bulk-sync per-record merge,
* `update_outlook_manager_block`'s body transformation (lines 128-191),
  including an executable rendering of the three regular expressions it
  uses to strip previous manager blocks,
* the Edit-tab "Save Changes" handler, the Delete handler, and the
  "Bulk Sync Now" delta-sync handler, as effect-trace functions.

Network and database calls are modelled as effect constructors; the
outcome of an external call, where it influences control flow, is a
parameter of the embedded handler.
-/

/-! ### Python-style character helpers -/

/-- Python `\s` (ASCII portion): space, tab, newline, carriage return,
vertical tab, form feed. -/
def isWs (c : Char) : Bool :=
  c = ' ' || c = '\t' || c = '\n' || c = '\r' || c = '\x0b' || c = '\x0c'

/-- Python `\w` (ASCII portion), used for the `\b` word-boundary checks in
the manager-block regexes. -/
def isWordChar (c : Char) : Bool :=
  c.isAlpha || c.isDigit || c = '_'

/-- `str.strip()` on a character list. -/
def pyStrip (s : List Char) : List Char :=
  ((s.dropWhile isWs).reverse.dropWhile isWs).reverse

/-- One character of Python `html.escape` (with its default `quote=True`):
`&`, `<`, `>`, `"` and the single quote are replaced by entities. -/
def escChar (c : Char) : List Char :=
  if c = '&' then "&amp;".data
  else if c = '<' then "&lt;".data
  else if c = '>' then "&gt;".data
  else if c = '"' then "&quot;".data
  else if c = '\'' then "&#x27;".data
  else [c]

/-- Python `html.escape` (character-wise; the sequential `str.replace`
calls of the library function touch disjoint characters, so a single
left-to-right pass produces the same string). -/
def htmlEscape (s : String) : String :=
  ⟨(s.data.map escChar).flatten⟩

/-! ### Dates and times

Python `date` / `datetime` values that the handlers manipulate.  Day
arithmetic (`timedelta(days=n)`) goes through a days-since-epoch
conversion using the standard civil-calendar algorithms; time-of-day is
kept as wall-clock hours/minutes/seconds.  The app stores instants in
UTC; since the claims under test concern which *day* is stored or sent
(inclusive vs exclusive all-day ends), the embedding keeps the local
wall-clock instant together with its zone name and leaves the final
UTC rendering (a bijective re-labelling of the instant) unmodelled. -/
structure Date where
  year : Nat
  month : Nat
  day : Nat
deriving DecidableEq, Repr

structure Time where
  hour : Nat
  minute : Nat
  second : Nat
deriving DecidableEq, Repr

structure DateTime where
  date : Date
  time : Time
deriving DecidableEq, Repr

/-- Days since 1970-01-01 of a civil date (standard "days from civil"
algorithm, proleptic Gregorian). -/
def Date.toDays (dt : Date) : Int :=
  let y : Int := if dt.month ≤ 2 then (dt.year : Int) - 1 else (dt.year : Int)
  let era : Int := Int.fdiv (if y ≥ 0 then y else y - 399) 400
  let yoe : Int := y - era * 400
  let mp : Int := Int.emod ((dt.month : Int) + 9) 12
  let doy : Int := Int.fdiv (153 * mp + 2) 5 + (dt.day : Int) - 1
  let doe : Int := yoe * 365 + Int.fdiv yoe 4 - Int.fdiv yoe 100 + doy
  era * 146097 + doe - 719468

/-- Civil date from days since 1970-01-01 (standard "civil from days"
algorithm, inverse of `Date.toDays`). -/
def Date.fromDays (z0 : Int) : Date :=
  let z : Int := z0 + 719468
  let era : Int := Int.fdiv (if z ≥ 0 then z else z - 146096) 146097
  let doe : Int := z - era * 146097
  let yoe : Int :=
    Int.fdiv (doe - Int.fdiv doe 1460 + Int.fdiv doe 36524 - Int.fdiv doe 146096) 365
  let y : Int := yoe + era * 400
  let doy : Int := doe - (365 * yoe + Int.fdiv yoe 4 - Int.fdiv yoe 100)
  let mp : Int := Int.fdiv (5 * doy + 2) 153
  let d : Int := doy - Int.fdiv (153 * mp + 2) 5 + 1
  let m : Int := if mp < 10 then mp + 3 else mp - 9
  ⟨(if m ≤ 2 then y + 1 else y).toNat, m.toNat, d.toNat⟩

/-- `d + timedelta(days=n)`. -/
def Date.addDays (d : Date) (n : Int) : Date :=
  Date.fromDays (d.toDays + n)

/-- Python `max(a, b)` on dates (returns `a` on ties, like `max`). -/
def pyMaxDate (a b : Date) : Date :=
  if Date.toDays b > Date.toDays a then b else a

/-- Leap year predicate (used by the ISO parser's day-of-month check). -/
def isLeap (y : Nat) : Bool :=
  y % 4 = 0 && (y % 100 ≠ 0 || y % 400 = 0)

def daysInMonth (y m : Nat) : Nat :=
  if m = 2 then (if isLeap y then 29 else 28)
  else if m = 4 || m = 6 || m = 9 || m = 11 then 30
  else 31

def digitChar (n : Nat) : Char := Char.ofNat (48 + n % 10)

/-- Zero-padded two-digit decimal rendering (for values below 100). -/
def pad2 (n : Nat) : String := ⟨[digitChar (n / 10), digitChar n]⟩

/-- Zero-padded four-digit decimal rendering (for values below 10000). -/
def pad4 (n : Nat) : String :=
  ⟨[digitChar (n / 1000), digitChar (n / 100), digitChar (n / 10), digitChar n]⟩

/-- `date.isoformat()`: `YYYY-MM-DD`. -/
def Date.toIso (d : Date) : String :=
  pad4 d.year ++ "-" ++ pad2 d.month ++ "-" ++ pad2 d.day

/-- `time` part of `strftime("%H:%M:%S")`. -/
def Time.toIso (t : Time) : String :=
  pad2 t.hour ++ ":" ++ pad2 t.minute ++ ":" ++ pad2 t.second

/-- `datetime.strftime("%Y-%m-%dT%H:%M:%S")`, as used by the payload
builder and by `graph_datetime_obj`. -/
def DateTime.strftimeSec (dt : DateTime) : String :=
  dt.date.toIso ++ "T" ++ dt.time.toIso

/-- Total seconds since the epoch of a wall-clock datetime; Python's
`datetime` comparison on two same-zone aware values orders by this key. -/
def DateTime.key (dt : DateTime) : Int :=
  dt.date.toDays * 86400 +
    ((dt.time.hour : Int) * 3600 + (dt.time.minute : Int) * 60 + (dt.time.second : Int))

/-- `a <= b` on same-zone datetimes. -/
def DateTime.leB (a b : DateTime) : Bool := a.key ≤ b.key

/-! ### Zone translator (`TZ_MAP`, `IANA_MAP`, src/app.py lines 67-82) -/
def TZ_MAP : List (String × String) :=
  [("Eastern", "Eastern Standard Time"), ("Central", "Central Standard Time"),
   ("Mountain", "Mountain Standard Time"), ("Pacific", "Pacific Standard Time"),
   ("Alaska", "Alaskan Standard Time"), ("Hawaii", "Hawaiian Standard Time")]

def IANA_MAP : List (String × String) :=
  [("Eastern", "America/New_York"), ("Central", "America/Chicago"),
   ("Mountain", "America/Denver"), ("Pacific", "America/Los_Angeles"),
   ("Alaska", "America/Anchorage"), ("Hawaii", "Pacific/Honolulu")]

/-! ### Event payload builder (`build_graph_event_payload`, lines 258-305) -/
/-- A value that is either a Python `datetime` or a bare `date`
(the builder's `start_dt`/`end_dt` parameters are annotated
`datetime | date` and dispatched with `isinstance`). -/
inductive PyDT where
  | dt (v : DateTime)
  | d (v : Date)
deriving DecidableEq, Repr

/-- Graph `{"dateTime": ..., "timeZone": ...}` object as emitted by the
payload builder. -/
structure GraphTimeObj where
  dateTime : String
  timeZone : String
deriving DecidableEq, Repr

/-- The payload dictionary built by `build_graph_event_payload`.
Conditionally-present dictionary keys are `Option` fields (`none` means
the key is absent); `stop` models the `"end"` key (`end` is reserved in
Lean). -/
structure GraphPayload where
  subject : String
  isReminderOn : Bool
  reminderMinutesBeforeStart : Int
  bodyContent : String
  showAs : String
  isAllDay : Option Bool
  start : GraphTimeObj
  stop : GraphTimeObj
  location : Option String
  isOnlineMeeting : Option Bool
  onlineMeetingProvider : Option String
deriving DecidableEq, Repr

/-- `datetime.date()` / identity on a `date` (`isinstance` dispatch in the
all-day branch of the builder). -/
def PyDT.toDateOnly : PyDT → Date
  | .dt v => v.date
  | .d v => v

/-- `strftime("%Y-%m-%dT%H:%M:%S")` on either variant (a bare `date`
formats its missing time fields as zero). -/
def PyDT.toStamp : PyDT → String
  | .dt v => v.strftimeSec
  | .d v => v.toIso ++ "T00:00:00"

def build_graph_event_payload (subject body_html tz_windows : String)
    (start_dt end_dt : PyDT) (is_all_day : Bool) (location_str : Option String)
    (set_teams : Bool) (reminder_minutes : Int) : GraphPayload :=
  { subject := subject
    isReminderOn := true
    reminderMinutesBeforeStart := reminder_minutes
    bodyContent := body_html
    showAs := "free"
    isAllDay := if is_all_day then some true else none
    start :=
      if is_all_day then ⟨start_dt.toDateOnly.toIso, tz_windows⟩
      else ⟨start_dt.toStamp, tz_windows⟩
    stop :=
      if is_all_day then ⟨end_dt.toDateOnly.toIso, tz_windows⟩
      else ⟨end_dt.toStamp, tz_windows⟩
    location :=
      match location_str with
      | some l => if l = "" then none else some l
      | none => none
    isOnlineMeeting := if set_teams then some true else none
    onlineMeetingProvider := if set_teams then some "teamsForBusiness" else none }

/-! ### Create-tab submission handler (lines 664-875) -/
inductive EvType where
  | inPerson
  | virtual
deriving DecidableEq, Repr

/-- Reminder widget state feeding `rem_minutes_for_graph`. -/
inductive RemMode where
  | minutesBefore (n : Int)
  | daysBefore (n : Int)
  | onDate
deriving DecidableEq, Repr

/-- `rem_minutes_for_graph` (lines 737-745): mode dispatch followed by the
clamp to `[0, 525600]`. -/
def remMinutesForGraph (m : RemMode) : Int :=
  let x : Int :=
    match m with
    | .minutesBefore n => n
    | .daysBefore n => n * 1440
    | .onDate => 0
  max 0 (min x 525600)

/-- The form state consumed by the create-submission handler. -/
structure CreateInput where
  event_type : EvType
  is_all_day : Bool
  subject : String
  client_value : String
  tz_choice : String
  start_date : Date
  end_date : Date
  start_time : Time
  end_time : Time
  location : String
  virtual_provider : Option String
  virtual_link : String
  accreditation_required : Bool
  manager_other : Bool
  manager_name : String
  manager_email : String
  rem_mode : RemMode
  confirm_no_link : Bool
  client_other : Bool
  reminder_dt_set : Bool
deriving DecidableEq, Repr

/-- Validation block (lines 670-679). -/
def createValidationErrs (i : CreateInput) : List String :=
  (if i.subject = "" then ["Event Title is required."] else []) ++
  (if i.event_type = .inPerson ∧ i.location = "" then
    ["Location is required for in-person events."] else []) ++
  (if i.manager_other ∧ (i.manager_name = "" ∨ i.manager_email = "") then
    ["Meeting Manager name and email are required."] else [])

/-- Local start/end instants built by the handler (lines 684-690): for an
all-day event the start is local midnight of the start date and the end is
local midnight of `max(end_date, start_date) + timedelta(days=1)`; for a
timed event the chosen dates and times are combined directly. -/
def create_start_end_local (i : CreateInput) : DateTime × DateTime :=
  if i.is_all_day then
    (⟨i.start_date, ⟨0, 0, 0⟩⟩,
     ⟨(pyMaxDate i.end_date i.start_date).addDays 1, ⟨0, 0, 0⟩⟩)
  else
    (⟨i.start_date, i.start_time⟩, ⟨i.end_date, i.end_time⟩)

/-- The red manager block with the pre-create placeholder text
(lines 721-727). -/
def managerBlockPlaceholder (manager_name : String) : String :=
  "<table role='presentation' style='border-collapse:collapse;border-spacing:0;margin:0;padding:0;'>" ++
  "<tr><td style='font-family:Segoe UI, Arial, sans-serif; font-size:11pt; color:#c00000;'>" ++
  "<b>Meeting Manager: " ++ htmlEscape manager_name ++ "</b><br><br>" ++
  "<b>[App Outlook Event ID will sync here]</b>" ++
  "</td></tr></table>"

/-- `combined_body` (lines 713-729): optional client line, accreditation
line, manager block with placeholder id. -/
def combinedBody (i : CreateInput) : String :=
  (if i.client_value = "" then ""
   else "<p><b>Client:</b> " ++ htmlEscape i.client_value ++ "</p>") ++
  ("<p><b>Accreditation:</b> " ++ (if i.accreditation_required then "Yes" else "No") ++ "</p>") ++
  managerBlockPlaceholder i.manager_name

/-- `set_teams` (line 734). -/
def setTeams (i : CreateInput) : Bool :=
  i.event_type = .virtual && i.virtual_provider = some "teams"

/-- `location_str` (line 735): the location for in-person events, else the
virtual link when the provider is zoom, else `None`. -/
def locationStr (i : CreateInput) : Option String :=
  if i.event_type = .inPerson then some i.location
  else if i.virtual_provider = some "zoom" then some i.virtual_link
  else none

/-- The payload the create handler submits (lines 747-757): note that for
an all-day event the handler passes the raw form dates `start_date` and
`end_date` — not the computed exclusive `end_dt_local`. -/
def createPayload (i : CreateInput) : GraphPayload :=
  build_graph_event_payload i.subject (combinedBody i)
    ((TZ_MAP.lookup i.tz_choice).getD "")
    (if ¬i.is_all_day then .dt (create_start_end_local i).1 else .d i.start_date)
    (if ¬i.is_all_day then .dt (create_start_end_local i).2 else .d i.end_date)
    i.is_all_day (locationStr i) (setTeams i) (remMinutesForGraph i.rem_mode)

/-- Python `str.replace(needle, repl)` (all occurrences, left to right),
with fuel bounded by the string length; the needle is non-empty at the
single call site (the placeholder swap after event creation). -/
def replaceAllL (needle repl : List Char) : Nat → List Char → List Char
  | 0, s => s
  | _ + 1, [] => []
  | f + 1, c :: r =>
    if needle ≠ [] ∧ needle.isPrefixOf (c :: r) then
      repl ++ replaceAllL needle repl f (List.drop needle.length (c :: r))
    else c :: replaceAllL needle repl f r

def pyReplace (s needle repl : String) : String :=
  ⟨replaceAllL needle.data repl.data s.data.length s.data⟩

/-- The `events` row assembled by the create handler (lines 789-807).
`start_dt_local`/`end_dt_local` model the instants whose UTC renderings
the handler stores in `start_dt_utc`/`end_dt_utc` (conversion to UTC is a
bijective re-labelling of the instant and is left unmodelled). -/
structure InsertRow where
  subject : String
  client : Option String
  start_dt_local : DateTime
  end_dt_local : DateTime
  timezone_display : String
  is_all_day : Bool
  location : Option String
  event_type : String
  virtual_provider : Option String
  virtual_link : Option String
  meeting_manager_name : String
  meeting_manager_email : String
  reminder_minutes : Int
  outlook_event_id : Option String
  accreditation_required : Bool
  created_at : String
  outlook_body_html : String
deriving DecidableEq, Repr

/-- External effects attempted by the create handler, in program order.
The Graph token acquisition and event creation share one `try` block; the
whole attempt is a single effect whose outcome (`createdId`) is a
parameter of `createSubmit`. -/
inductive CEff where
  | insertClient (name : String)
  | insertManager (name email : String)
  | graphCreateAttempt (p : GraphPayload)
  | graphPatchBody (body : String)
  | dbInsert (row : InsertRow)
  | notifCustom
  | notifMissingLink
  | emailManager
  | emailAccreditation
deriving DecidableEq, Repr

inductive CreateOutcome where
  | halted
  | rejected (msgs : List String)
  | insertFailed
  | completed
deriving DecidableEq, Repr

structure CreateRun where
  effects : List CEff
  outcome : CreateOutcome
deriving DecidableEq, Repr

/-- `patched_body_for_db` (lines 761-779): after a successful create the
placeholder is replaced with the real event id; otherwise the original
body is kept. -/
def patchedBodyForDb (body : String) : Option String → String
  | some oid => pyReplace body "[App Outlook Event ID will sync here]" ("[App Outlook Event ID: " ++ oid ++ "]")
  | none => body

/-- The row as built at lines 789-807. -/
def createInsertRow (i : CreateInput) (createdId : Option String) (nowIso : String) : InsertRow :=
  { subject := i.subject
    client := if i.client_value = "" then none else some i.client_value
    start_dt_local := (create_start_end_local i).1
    end_dt_local := (create_start_end_local i).2
    timezone_display := (IANA_MAP.lookup i.tz_choice).getD ""
    is_all_day := i.is_all_day
    location := if i.location = "" then none else some i.location
    event_type := if i.event_type = .virtual then "virtual" else "in_person"
    virtual_provider := i.virtual_provider
    virtual_link :=
      if i.event_type = .inPerson then none
      else if i.virtual_link = "" then none else some i.virtual_link
    meeting_manager_name := i.manager_name
    meeting_manager_email := i.manager_email
    reminder_minutes := remMinutesForGraph i.rem_mode
    outlook_event_id := createdId
    accreditation_required := i.accreditation_required
    created_at := nowIso
    outlook_body_html := patchedBodyForDb (combinedBody i) createdId }

/-- The create-submission handler (lines 664-875) as an effect trace.
`createdId` is the outcome of the Outlook create attempt (`none` models
any exception in that `try` block, which the handler downgrades to a
warning); `insertOk` is the outcome of the Supabase insert. -/
def createSubmit (i : CreateInput) (createdId : Option String) (insertOk : Bool)
    (nowIso : String) : CreateRun :=
  if i.event_type = .virtual ∧ i.virtual_link = "" ∧ ¬i.confirm_no_link then
    ⟨[], .halted⟩
  else if createValidationErrs i ≠ [] then
    ⟨[], .rejected (createValidationErrs i)⟩
  else
    let sL := (create_start_end_local i).1
    let eL := (create_start_end_local i).2
    if ¬i.is_all_day ∧ DateTime.leB eL sL then
      ⟨[], .rejected ["End date/time must be after the start date/time. Please adjust and resubmit."]⟩
    else
      let persistEffs : List CEff :=
        (if i.client_value ≠ "" ∧ i.client_other then [.insertClient i.client_value] else []) ++
        (if i.manager_other ∧ i.manager_name ≠ "" ∧ i.manager_email ≠ "" then
          [.insertManager i.manager_name i.manager_email] else [])
      let graphEffs : List CEff :=
        [.graphCreateAttempt (createPayload i)] ++
        (match createdId with
         | some _ => [.graphPatchBody (patchedBodyForDb (combinedBody i) createdId)]
         | none => [])
      let row := createInsertRow i createdId nowIso
      if ¬insertOk then
        ⟨persistEffs ++ graphEffs ++ [.dbInsert row], .insertFailed⟩
      else
        ⟨persistEffs ++ graphEffs ++ [.dbInsert row] ++
          (if i.rem_mode = .onDate ∧ i.reminder_dt_set then [.notifCustom] else []) ++
          (if i.event_type = .virtual ∧ i.virtual_link = "" then [.notifMissingLink] else []) ++
          (if i.manager_email ≠ "" then [.emailManager] else []) ++
          (if i.accreditation_required then [.emailAccreditation] else []),
         .completed⟩

/-- Edit-tab seeding of the end-date widget (lines 957-959): for an
all-day event the stored (exclusive) end instant is shown as the day
before; Python timedelta arithmetic on an aware datetime is wall-clock,
so subtracting a day and taking `.date()` is day subtraction. -/
def editSeedEndDate (is_all_day : Bool) (end_local : DateTime) : Date :=
  if is_all_day then end_local.date.addDays (-1) else end_local.date

/-! ### Sample inputs used by concrete evaluations -/
/-- All-day event spanning June 10-12, 2025 inclusive, zone "Eastern"
(the scenario named by the specification). -/
def sampleAllDayJune : CreateInput :=
  { event_type := .inPerson
    is_all_day := true
    subject := "Board Meeting"
    client_value := ""
    tz_choice := "Eastern"
    start_date := ⟨2025, 6, 10⟩
    end_date := ⟨2025, 6, 12⟩
    start_time := ⟨0, 0, 0⟩
    end_time := ⟨0, 0, 0⟩
    location := "HQ"
    virtual_provider := none
    virtual_link := ""
    accreditation_required := false
    manager_other := false
    manager_name := "Alice"
    manager_email := "alice@example.org"
    rem_mode := .minutesBefore 30
    confirm_no_link := false
    client_other := false
    reminder_dt_set := false }

/-- Timed event whose end instant equals its start instant. -/
def sampleTimedEqual : CreateInput :=
  { sampleAllDayJune with
    is_all_day := false
    start_date := ⟨2025, 6, 10⟩
    end_date := ⟨2025, 6, 10⟩
    start_time := ⟨9, 0, 0⟩
    end_time := ⟨9, 0, 0⟩ }

/-! ### Outlook-to-app field mapping (`_parse_graph_dt_to_utc`,
`map_graph_event_to_row_updates`, lines 432-485) -/
/-- Parsed components of a Python `datetime` carrying microseconds (the
ISO parser's working representation). -/
structure PDateTime where
  date : Date
  hour : Nat
  minute : Nat
  second : Nat
  micro : Nat
deriving DecidableEq, Repr

/-- `astimezone(UTC)` on an aware datetime whose offset is `offMin`
minutes: subtract the offset, carrying across day boundaries. -/
def pdtToUtc (p : PDateTime) (offMin : Int) : PDateTime :=
  let tot : Int := p.date.toDays * 1440 + (p.hour : Int) * 60 + (p.minute : Int) - offMin
  { date := Date.fromDays (Int.fdiv tot 1440)
    hour := (Int.fdiv (Int.emod tot 1440) 60).toNat
    minute := (Int.emod (Int.emod tot 1440) 60).toNat
    second := p.second
    micro := p.micro }

def pad6 (n : Nat) : String :=
  ⟨[digitChar (n / 100000), digitChar (n / 10000), digitChar (n / 1000),
    digitChar (n / 100), digitChar (n / 10), digitChar n]⟩

/-- `datetime.isoformat()` of a UTC-aware value: microseconds are printed
only when non-zero, and the offset prints as `+00:00`. -/
def pdtIsoUtc (p : PDateTime) : String :=
  p.date.toIso ++ "T" ++ pad2 p.hour ++ ":" ++ pad2 p.minute ++ ":" ++ pad2 p.second ++
  (if p.micro = 0 then "" else "." ++ pad6 p.micro) ++ "+00:00"

def expectChar (c : Char) : List Char → Option (List Char)
  | x :: r => if x = c then some r else none
  | [] => none

def read2 : List Char → Option (Nat × List Char)
  | a :: b :: r =>
    if a.isDigit && b.isDigit then some ((a.toNat - 48) * 10 + (b.toNat - 48), r) else none
  | _ => none

def read4 : List Char → Option (Nat × List Char)
  | a :: b :: c :: d :: r =>
    if a.isDigit && b.isDigit && c.isDigit && d.isDigit then
      some ((a.toNat - 48) * 1000 + (b.toNat - 48) * 100 + (c.toNat - 48) * 10 + (d.toNat - 48), r)
    else none
  | _ => none

def parseIsoDate (s : List Char) : Option (Date × List Char) := do
  let (y, r1) ← read4 s
  let r2 ← expectChar '-' r1
  let (mo, r3) ← read2 r2
  let r4 ← expectChar '-' r3
  let (d, r5) ← read2 r4
  if 1 ≤ mo ∧ mo ≤ 12 ∧ 1 ≤ d ∧ d ≤ daysInMonth y mo then some (⟨y, mo, d⟩, r5) else none

/-- Fractional-second digits scaled to microseconds (digits beyond six are
truncated, as `fromisoformat` does). -/
def microOfDigits (ds : List Char) : Nat :=
  let ds6 := ds.take 6
  (ds6.foldl (fun a c => a * 10 + (c.toNat - 48)) 0) * 10 ^ (6 - ds6.length)

/-- A `±HH:MM` UTC offset in minutes (must end the string). -/
def parseOffHM (s : List Char) : Option Int := do
  let (hh, r1) ← read2 s
  let r2 ← expectChar ':' r1
  let (mm, r3) ← read2 r2
  if r3 = [] ∧ hh ≤ 23 ∧ mm ≤ 59 then some ((hh : Int) * 60 + (mm : Int)) else none

/-- Tail of the parse after date, time and fraction: an optional UTC
offset.  A naive value (no offset) is treated as already UTC
(`dt.replace(tzinfo=UTC)`), an aware value is converted
(`dt.astimezone(UTC)`). -/
def finishOffset (dte : Date) (h mi sec micro : Nat) : List Char → Option String
  | [] => some (pdtIsoUtc ⟨dte, h, mi, sec, micro⟩)
  | '+' :: r => do
    let o ← parseOffHM r
    some (pdtIsoUtc (pdtToUtc ⟨dte, h, mi, sec, micro⟩ o))
  | '-' :: r => do
    let o ← parseOffHM r
    some (pdtIsoUtc (pdtToUtc ⟨dte, h, mi, sec, micro⟩ (-o)))
  | _ => none

/-- `datetime.fromisoformat` (on the common `YYYY-MM-DD[" ⁄T"HH:MM:SS[.f*][±HH:MM]]`
shapes that Graph produces) followed by conversion to UTC and
`isoformat()`; `none` models the `ValueError` swallowed by the caller. -/
def fromIsoToUtcIso (s : List Char) : Option String := do
  let (dte, r) ← parseIsoDate s
  match r with
  | [] => some (pdtIsoUtc ⟨dte, 0, 0, 0, 0⟩)
  | _sep :: r1 => do
    let (h, r2) ← read2 r1
    let r3 ← expectChar ':' r2
    let (mi, r4) ← read2 r3
    let r5 ← expectChar ':' r4
    let (sec, r6) ← read2 r5
    if h ≤ 23 ∧ mi ≤ 59 ∧ sec ≤ 59 then
      match r6 with
      | '.' :: rest =>
        let ds := rest.takeWhile Char.isDigit
        if ds = [] then none
        else finishOffset dte h mi sec (microOfDigits ds) (rest.dropWhile Char.isDigit)
      | _ => finishOffset dte h mi sec 0 r6
    else none

/-- `dt_raw.replace("Z", "+00:00")`. -/
def replaceZ (s : List Char) : List Char :=
  (s.map (fun c => if c = 'Z' then "+00:00".data else [c])).flatten

/-- A Graph `{"dateTime": ..., "timeZone": ...}` object as received from
delta sync (either key may be missing); `_parse_graph_dt_to_utc` reads
only `dateTime` and ignores `timeZone`. -/
structure GraphDateTimeRaw where
  dateTime : Option String
  timeZone : Option String
deriving DecidableEq, Repr

/-- `_parse_graph_dt_to_utc` (lines 432-450). -/
def parse_graph_dt_to_utc : Option GraphDateTimeRaw → Option String
  | none => none
  | some o =>
    match o.dateTime with
    | none => none
    | some raw => if raw = "" then none else fromIsoToUtcIso (replaceZ raw.data)

structure GraphLocation where
  displayName : Option String
deriving DecidableEq, Repr

structure GraphOnlineMeeting where
  joinUrl : Option String
deriving DecidableEq, Repr

/-- The fields of a Graph event record that
`map_graph_event_to_row_updates` reads (`stop` models the `"end"` key). -/
structure GraphEvent where
  subject : Option String
  isAllDay : Option Bool
  start : Option GraphDateTimeRaw
  stop : Option GraphDateTimeRaw
  location : Option GraphLocation
  onlineMeeting : Option GraphOnlineMeeting
deriving DecidableEq, Repr

/-- A JSON-ish update value (string or boolean column assignment). -/
inductive Val where
  | s (v : String)
  | b (v : Bool)
deriving DecidableEq, Repr

/-- `(g.get("location") or {}).get("displayName") or ""`. -/
def locVal (g : GraphEvent) : String :=
  match g.location with
  | some l => l.displayName.getD ""
  | none => ""

/-- `map_graph_event_to_row_updates` (lines 452-485), as the ordered list
of dictionary entries it builds: subject only when truthy, `is_all_day`
always (`bool(...)` of a possibly-missing value), start/end only when the
conversion produced a truthy string, location only when the display name
is truthy, `virtual_link` only when a `joinUrl` is present and truthy. -/
def map_graph_event_to_row_updates (g : GraphEvent) : List (String × Val) :=
  (match g.subject with
   | some subj => if subj = "" then [] else [("subject", Val.s subj)]
   | none => []) ++
  [("is_all_day", Val.b (g.isAllDay.getD false))] ++
  (match parse_graph_dt_to_utc g.start with
   | some u => if u = "" then [] else [("start_dt_utc", Val.s u)]
   | none => []) ++
  (match parse_graph_dt_to_utc g.stop with
   | some u => if u = "" then [] else [("end_dt_utc", Val.s u)]
   | none => []) ++
  (if locVal g = "" then [] else [("location", Val.s (locVal g))]) ++
  (match g.onlineMeeting with
   | some om =>
     match om.joinUrl with
     | some j => if j = "" then [] else [("virtual_link", Val.s j)]
     | none => []
   | none => [])

/-- A stored `events` row restricted to the columns the delta merge can
touch plus the app-owned columns the claims protect. -/
structure EventsRow where
  subject : String
  client : Option String
  start_dt_utc : String
  end_dt_utc : String
  is_all_day : Bool
  location : Option String
  virtual_link : Option String
  meeting_manager_name : String
  meeting_manager_email : String
  accreditation_required : Bool
  updated_at : String
deriving DecidableEq, Repr

/-- One column assignment of `supabase.table("events").update(updates)`:
a known key overwrites its column, anything else is a no-op here (the
merge only ever receives the keys below). -/
def setField (r : EventsRow) (kv : String × Val) : EventsRow :=
  if kv.1 = "subject" then (match kv.2 with | .s v => { r with subject := v } | _ => r)
  else if kv.1 = "client" then (match kv.2 with | .s v => { r with client := some v } | _ => r)
  else if kv.1 = "start_dt_utc" then (match kv.2 with | .s v => { r with start_dt_utc := v } | _ => r)
  else if kv.1 = "end_dt_utc" then (match kv.2 with | .s v => { r with end_dt_utc := v } | _ => r)
  else if kv.1 = "is_all_day" then (match kv.2 with | .b v => { r with is_all_day := v } | _ => r)
  else if kv.1 = "location" then (match kv.2 with | .s v => { r with location := some v } | _ => r)
  else if kv.1 = "virtual_link" then (match kv.2 with | .s v => { r with virtual_link := some v } | _ => r)
  else if kv.1 = "meeting_manager_name" then (match kv.2 with | .s v => { r with meeting_manager_name := v } | _ => r)
  else if kv.1 = "meeting_manager_email" then (match kv.2 with | .s v => { r with meeting_manager_email := v } | _ => r)
  else if kv.1 = "accreditation_required" then (match kv.2 with | .b v => { r with accreditation_required := v } | _ => r)
  else if kv.1 = "updated_at" then (match kv.2 with | .s v => { r with updated_at := v } | _ => r)
  else r

/-- Applying an update dictionary to a row. -/
def applyUpdates (r : EventsRow) (kvs : List (String × Val)) : EventsRow :=
  kvs.foldl setField r

/-! ### Delete handler (lines 978-995) and `graph_delete_event`
(lines 119-125) -/
inductive DelEff where
  | graphTokenAcq
  | graphDelete (status : Nat)
  | warnOutlook
  | dbDeleteRow
deriving DecidableEq, Repr

inductive DelOutcome where
  | success
  | failed
deriving DecidableEq, Repr

/-- The Delete Event handler as an effect trace.  `graph_delete_event`
raises only when the DELETE status is neither 204 nor 404 ("204 = deleted;
404 = already gone"); that exception is caught by the inner `except`
(line 985), reported as a warning, and the Supabase row delete
(line 990, whose foreign key cascades to `notifications`) runs anyway.
A token-acquisition failure, by contrast, propagates to the outer
`except` (line 994) before the row delete.  The `if` guard at line 981 is
the truthiness of `ev.get("outlook_event_id")` and of the `missing`
secrets list. -/
def delete_event_flow (oid : Option String) (missingSecrets tokenOk : Bool)
    (status : Nat) : List DelEff × DelOutcome :=
  if (oid.getD "") ≠ "" ∧ ¬missingSecrets then
    if tokenOk then
      ([.graphTokenAcq, .graphDelete status] ++
        (if status = 204 ∨ status = 404 then [] else [.warnOutlook]) ++ [.dbDeleteRow],
       .success)
    else ([.graphTokenAcq], .failed)
  else ([.dbDeleteRow], .success)

/-! ### Edit-tab "Save Changes" handler (lines 1123-1253)

As committed, this block does not even parse as Python: lines 1168-1247
stand at the indentation level of the `try:` opened at line 1137, between
that `try`'s body and its `except` at line 1249
(`SyntaxError: expected 'except' or 'finally' block`).  The embedding
reads those statements as part of the `try` body — the only reading under
which the `except` clause binds — and models the statements as written:

* the whole sequence (core PATCH, manager-block refresh, metadata-block
  refresh, Supabase row update, reminder upserts) sits inside one `try`
  whose `except` reports "Update failed" and stops;
* the entire sequence, *including the Supabase row update at
  line 1214*, is nested under `if ev.get("outlook_event_id"):`
  (line 1169), so a null calendar id skips the local update too;
* line 1202 calls `upsert_outlook_client_and_accreditation`, a name
  defined nowhere in the repository: evaluating that call raises
  `NameError`, which the shared `except` catches, so the Supabase update
  that follows it is unreachable. -/
inductive SaveEff where
  | graphTokenAcq
  | patchCore
  | mgrBlock (ok : Bool)
  | metaBlockCall
  | dbUpdate
  | reminderUpsert
  | missingLinkDelete
deriving DecidableEq, Repr

inductive SaveOutcome where
  | stoppedValidation (msgs : List String)
  | stoppedError (msg : String)
  | success
deriving DecidableEq, Repr

structure SaveInput where
  subject_e : String
  event_type_e : EvType
  location_e : String
  manager_name_e : String
  manager_email_e : String
  is_all_day_e : Bool
  start_date_e : Date
  end_date_e : Date
  start_time_e : Time
  end_time_e : Time
  outlook_event_id : Option String
  missingSecrets : Bool
  tokenOk : Bool
  patchOk : Bool
  mgrBlockOk : Bool
deriving DecidableEq, Repr

/-- New local instants built by the edit handler (lines 1143-1149), the
same computation as the create handler's. -/
def editStartEndLocal (i : SaveInput) : DateTime × DateTime :=
  if i.is_all_day_e then
    (⟨i.start_date_e, ⟨0, 0, 0⟩⟩,
     ⟨(pyMaxDate i.end_date_e i.start_date_e).addDays 1, ⟨0, 0, 0⟩⟩)
  else
    (⟨i.start_date_e, i.start_time_e⟩, ⟨i.end_date_e, i.end_time_e⟩)

/-- Validation block of the edit handler (lines 1125-1134); note it
requires a manager name *and* email unconditionally. -/
def saveValidationErrs (i : SaveInput) : List String :=
  (if i.subject_e = "" then ["Event Title is required."] else []) ++
  (if i.event_type_e = .inPerson ∧ i.location_e = "" then
    ["Location is required for in-person events."] else []) ++
  (if ¬(i.manager_name_e ≠ "" ∧ i.manager_email_e ≠ "") then
    ["Meeting Manager name and email are required."] else [])

/-- The Save Changes handler as an effect trace (see the section comment
for how the broken `try` block is read).  `tokenOk`/`patchOk` are the
outcomes of `get_graph_token` and the core-fields PATCH;
`update_outlook_manager_block` swallows its own errors and returns a
boolean; the following call to the undefined
`upsert_outlook_client_and_accreditation` always raises `NameError`. -/
def saveChanges (i : SaveInput) : List SaveEff × SaveOutcome :=
  if saveValidationErrs i ≠ [] then ([], .stoppedValidation (saveValidationErrs i))
  else if ¬i.is_all_day_e ∧ DateTime.leB (editStartEndLocal i).2 (editStartEndLocal i).1 then
    ([], .stoppedError "End date/time must be after start date/time.")
  else
    match i.outlook_event_id with
    | some oid =>
      if oid = "" then ([], .success)
      else if i.missingSecrets then
        ([], .stoppedError "Update failed: Missing Graph secrets for update.")
      else if ¬i.tokenOk then
        ([.graphTokenAcq], .stoppedError "Update failed: token")
      else if ¬i.patchOk then
        ([.graphTokenAcq, .patchCore], .stoppedError "Update failed: Graph PATCH")
      else
        ([.graphTokenAcq, .patchCore, .mgrBlock i.mgrBlockOk, .metaBlockCall],
         .stoppedError "Update failed: name 'upsert_outlook_client_and_accreditation' is not defined")
    | none => ([], .success)

/-- A valid edit of an event that is linked to the calendar, with every
external call succeeding. -/
def sampleSaveLinked : SaveInput :=
  { subject_e := "Board Meeting"
    event_type_e := .inPerson
    location_e := "HQ"
    manager_name_e := "Alice"
    manager_email_e := "alice@example.org"
    is_all_day_e := false
    start_date_e := ⟨2025, 6, 10⟩
    end_date_e := ⟨2025, 6, 10⟩
    start_time_e := ⟨9, 0, 0⟩
    end_time_e := ⟨10, 0, 0⟩
    outlook_event_id := some "EVT123"
    missingSecrets := false
    tokenOk := true
    patchOk := true
    mgrBlockOk := true }

/-- The same edit on an event whose calendar id is null. -/
def sampleSaveOrphan : SaveInput :=
  { sampleSaveLinked with outlook_event_id := none }

/-! ### Delta sync (`graph_delta_events`, lines 389-426, and the
"Bulk Sync Now" handler, lines 1462-1509) -/
/-- One change record of a delta page (`"@removed"` marker, `"id"`, and
the fields the mapper reads). -/
structure DeltaRecord where
  removed : Bool
  id : Option String
  ev : GraphEvent
deriving DecidableEq, Repr

/-- One response page: records plus at most one of
`@odata.nextLink` / `@odata.deltaLink`. -/
structure DeltaPage where
  values : List DeltaRecord
  nextLink : Option String
  deltaLink : Option String
deriving DecidableEq, Repr

/-- A request issued by the delta client: the first windowed query, or a
fetch of an opaque URL (a delta link or a next link, which carry their
query parameters inside the URL). -/
inductive DeltaReq where
  | windowed (params : List (String × String))
  | byUrl (url : String)
deriving DecidableEq, Repr

/-- `params` of the first-time windowed call (lines 410-412):
`startDateTime` / `endDateTime` only when the strings are truthy. -/
def windowParams (s e : Option String) : List (String × String) :=
  (match s with
   | some v => if v = "" then [] else [("startDateTime", v)]
   | none => []) ++
  (match e with
   | some v => if v = "" then [] else [("endDateTime", v)]
   | none => [])

/-- The pagination loop common to both branches of `graph_delta_events`:
issue the first request, yield its page, and keep following
`@odata.nextLink` while it is truthy.  The environment's successive
responses are the `pages` list; the trace pairs each issued request with
the page it returned. -/
def walkPages (first : DeltaReq) : List DeltaPage → List (DeltaReq × DeltaPage)
  | [] => []
  | p :: rest =>
    (first, p) ::
      (match p.nextLink with
       | some nl => if nl = "" then [] else walkPages (.byUrl nl) rest
       | none => [])

/-- `graph_delta_events` (lines 389-426): with a truthy `delta_link` the
stored link itself is fetched (no window parameters); otherwise the
windowed `calendarView/delta` query is issued. -/
def graph_delta_events (start_iso end_iso delta_link : Option String)
    (pages : List DeltaPage) : List (DeltaReq × DeltaPage) :=
  match delta_link with
  | some dl =>
    if dl ≠ "" then walkPages (.byUrl dl) pages
    else walkPages (.windowed (windowParams start_iso end_iso)) pages
  | none => walkPages (.windowed (windowParams start_iso end_iso)) pages

/-- Per-record handling of the bulk-sync loop (lines 1484-1502): skip
`@removed` records and records without a truthy id; ignore records whose
id matches no local row; otherwise apply
`map_graph_event_to_row_updates` plus an `updated_at` stamp. -/
def recordUpdates (lookup : String → Option Nat) (nowIso : String)
    (values : List DeltaRecord) : List (Nat × List (String × Val)) :=
  values.flatMap fun g =>
    if g.removed then []
    else
      match g.id with
      | some oeid =>
        if oeid = "" then []
        else
          match lookup oeid with
          | some rowId =>
            let updates := map_graph_event_to_row_updates g.ev
            if updates ≠ [] then [(rowId, updates ++ [("updated_at", Val.s nowIso)])] else []
          | none => []
      | none => []

/-- The observable result of one "Bulk Sync Now" run: the requests
issued, the `graph_state` upserts performed (scope, delta link), and the
row updates applied. -/
structure BulkSyncResult where
  requests : List DeltaReq
  saves : List (String × String)
  rowUpdates : List (Nat × List (String × Val))
deriving DecidableEq, Repr

/-- `start_iso` of the handler (lines 1473-1478): the window string only
when no truthy delta link is stored. -/
def bulkStartIso (stored : Option String) (winStart : String) : Option String :=
  if (stored.getD "") = "" then some winStart else none

/-- `end_iso` of the handler, same condition. -/
def bulkEndIso (stored : Option String) (winEnd : String) : Option String :=
  if (stored.getD "") = "" then some winEnd else none

/-- The request/page pairs of one run. -/
def bulkPairs (stored : Option String) (winStart winEnd : String)
    (pages : List DeltaPage) : List (DeltaReq × DeltaPage) :=
  graph_delta_events (bulkStartIso stored winStart) (bulkEndIso stored winEnd) stored pages

/-- `last_delta` (line 1503): the last truthy `@odata.deltaLink` of the
pages seen, folded left like the loop does. -/
def lastDeltaOf (pages : List DeltaPage) : Option String :=
  pages.foldl
    (fun acc p =>
      match p.deltaLink with
      | some d => if d = "" then acc else some d
      | none => acc)
    none

/-- The "Bulk Sync Now" handler (lines 1462-1509).  `stored` is what
`get_delta_link()` returned; when it is falsy the bounded window
(`now-180d`, `now+365d`) is used, passed in here as the pre-rendered
strings `winStart`/`winEnd`.  After the loop one `save_delta_link` upsert
(keyed on scope `"default"`, `on_conflict="scope"`) runs if the last
truthy delta link is set. -/
def bulk_sync_now (stored : Option String) (winStart winEnd : String)
    (lookup : String → Option Nat) (nowIso : String)
    (pages : List DeltaPage) : BulkSyncResult :=
  { requests := (bulkPairs stored winStart winEnd pages).map Prod.fst
    saves :=
      match lastDeltaOf ((bulkPairs stored winStart winEnd pages).map Prod.snd) with
      | some d => [("default", d)]
      | none => []
    rowUpdates :=
      (((bulkPairs stored winStart winEnd pages).map Prod.snd).map
        fun p => recordUpdates lookup nowIso p.values).flatten }

/-! ### Manager-block maintenance (`update_outlook_manager_block`,
lines 128-191)

The function's pure core transforms the current body HTML: extract a
previously embedded id (the `[(App )?Outlook Event ID: …]` token), strip
every variant of the manager block with three regex substitutions
repeated to a fixed point, then append one freshly rendered block.

The three patterns (`re.I | re.S`) are executable functions below.  Each
is a chain of "first occurrence after the previous component" searches;
this is exactly the lazy-quantifier semantics of the patterns, because
every component is a plain literal/char search and a later starting point
for one component never enables a match that an earlier one could not
reach (the literals `meeting…manager:`, `outlook…event…id`, `<table`,
`]`, `</table>` cannot overlap an occurrence of themselves). -/
/-- Case-insensitive literal at the head of the input (pattern given in
lowercase); returns the rest. -/
def dropLitCI : List Char → List Char → Option (List Char)
  | [], s => some s
  | _ :: _, [] => none
  | p :: ps, c :: cs => if c.toLower = p then dropLitCI ps cs else none

/-- `\s+` before a literal: at least one whitespace, maximal run. -/
def dropWsPlus : List Char → Option (List Char)
  | c :: r => if isWs c then some (r.dropWhile isWs) else none
  | [] => none

/-- `\s*` before a literal: maximal whitespace run. -/
def dropWsStar (s : List Char) : List Char := s.dropWhile isWs

/-- `Meeting\s*Manager:` at the current position. -/
def matchLabelFrom (s : List Char) : Option (List Char) := do
  let r1 ← dropLitCI "meeting".data s
  dropLitCI "manager:".data (dropWsStar r1)

/-- `Outlook\s+Event\s+ID` at the current position. -/
def matchOeidLitFrom (s : List Char) : Option (List Char) := do
  let r1 ← dropLitCI "outlook".data s
  let r2 ← dropWsPlus r1
  let r3 ← dropLitCI "event".data r2
  let r4 ← dropWsPlus r3
  dropLitCI "id".data r4

/-- Scan left to right for the first position where `m` matches
(`re.search` / the lazy `.*?X` step); returns `m`'s value there. -/
def scanFirst {α : Type} (m : List Char → Option α) : List Char → Option α
  | [] => m []
  | c :: r =>
    match m (c :: r) with
    | some v => some v
    | none => scanFirst m r

/-- A single literal character. -/
def matchChar (ch : Char) : List Char → Option (List Char)
  | c :: r => if c = ch then some r else none
  | [] => none

/-- `\[.*?Outlook\s+Event\s+ID.*?\]` reached lazily from the current
position: first `[`, then the first literal after it, then the first `]`
after that. -/
def matchTokenChain (s : List Char) : Option (List Char) := do
  let r1 ← scanFirst (matchChar '[') s
  let r2 ← scanFirst matchOeidLitFrom r1
  scanFirst (matchChar ']') r2

/-- `pat_inline` (line 159): `Meeting\s*Manager:.*?\[.*?Outlook\s+Event\s+ID.*?\].{0,50}`
anchored at the current position; the trailing `.{0,50}` is greedy. -/
def matchInlineFrom (s : List Char) : Option (List Char) := do
  let r1 ← matchLabelFrom s
  let r2 ← matchTokenChain r1
  pure (r2.drop 50)

/-- `\b` after a literal: the next character is not a word character. -/
def bndOk : List Char → Bool
  | [] => true
  | c :: _ => ¬isWordChar c

/-- `pat_table` (line 153):
`<table\b.*?>.*?Meeting\s*Manager:.*?\[.*?Outlook\s+Event\s+ID.*?\].*?</table>`
anchored at the current position. -/
def matchTableFrom (s : List Char) : Option (List Char) := do
  let r1 ← dropLitCI "<table".data s
  if bndOk r1 then do
    let r2 ← scanFirst (matchChar '>') r1
    let r3 ← scanFirst matchLabelFrom r2
    let r4 ← matchTokenChain r3
    scanFirst (dropLitCI "</table>".data) r4
  else none

/-- One alternative of `(?P<tag>p|div|span|td)\b`: the tag literal
followed by a word boundary. -/
def tryTag (tag : List Char) (s : List Char) : Option (List Char) :=
  match dropLitCI tag s with
  | some r => if bndOk r then some r else none
  | none => none

/-- The tag alternation in source order (at most one literal can match at
a given position, so committing to the first is the regex behaviour). -/
def pickTag (s : List Char) : Option (List Char × List Char) :=
  match tryTag "p".data s with
  | some r => some ("p".data, r)
  | none =>
    match tryTag "div".data s with
    | some r => some ("div".data, r)
    | none =>
      match tryTag "span".data s with
      | some r => some ("span".data, r)
      | none =>
        match tryTag "td".data s with
        | some r => some ("td".data, r)
        | none => none

/-- `pat_block` (line 156):
`<(?P<tag>p|div|span|td)\b[^>]*>.*?Meeting\s*Manager:.*?\[.*?Outlook\s+Event\s+ID.*?\].*?</(?P=tag)>`
anchored at the current position; `[^>]*` cannot cross a `>`, and the
closing tag is the back-referenced one. -/
def matchBlockFrom (s : List Char) : Option (List Char) := do
  let r0 ← matchChar '<' s
  let (tag, r1) ← pickTag r0
  let r2 ← matchChar '>' (r1.dropWhile (fun c => c ≠ '>'))
  let r3 ← scanFirst matchLabelFrom r2
  let r4 ← matchTokenChain r3
  scanFirst (dropLitCI ('<' :: '/' :: tag ++ ['>'])) r4

/-- `pattern.sub("", s)`: scan positions left to right, delete each
match and continue after its end; fuel is the input length (a match
always consumes at least one character, see the `Consumes` lemmas). -/
def subAllF (m : List Char → Option (List Char)) : Nat → List Char → List Char
  | 0, s => s
  | _ + 1, [] => []
  | f + 1, c :: r =>
    match m (c :: r) with
    | some suf => subAllF m f suf
    | none => c :: subAllF m f r

def subAll (m : List Char → Option (List Char)) (s : List Char) : List Char :=
  subAllF m s.length s

/-- One iteration of the removal loop (lines 162-167): the three
substitutions in source order. -/
def roundStrip (s : List Char) : List Char :=
  subAll matchInlineFrom (subAll matchBlockFrom (subAll matchTableFrom s))

/-- `while changed:` loop; each changing round strictly shrinks the
string, so `length + 1` rounds reach the fixed point. -/
def stripLoopF : Nat → List Char → List Char
  | 0, s => s
  | f + 1, s =>
    let t := roundStrip s
    if t = s then s else stripLoopF f t

def stripAllBlocks (s : List Char) : List Char := stripLoopF (s.length + 1) s

/-- The `eid` capture of `:?\s*(?P<eid>[^\]]+)\]` given `u`, the
(non-empty) segment between the `ID` literal and the first `]`.  The
engine prefers to consume the colon and a maximal whitespace run, backing
off the whitespace by one character — and failing that, the colon — so
that `[^\]]+` keeps its mandatory character. -/
def eidCapture (u : List Char) (hu : u ≠ []) : List Char :=
  match u, hu with
  | ':' :: v, _ =>
    if hv : v = [] then [':']
    else
      let w := v.dropWhile isWs
      if w = [] then [v.getLast hv] else w
  | c :: v, _ =>
    let w := (c :: v).dropWhile isWs
    if w = [] then [(c :: v).getLast (by simp)] else w

/-- The id-extraction pattern (line 148):
`\[(?:App\s+)?Outlook\s+Event\s+ID:?\s*(?P<eid>[^\]]+)\]` anchored at the
current position, returning the raw `eid` capture.  The optional
`App\s+` group can be committed when it matches (a position matching
`app` cannot also match `outlook`); the tail after the `ID` literal must
reach a `]` with at least one character before it, and the capture is
read from that segment by `eidCapture`. -/
def matchEidFrom (s : List Char) : Option (List Char) := do
  let r0 ← matchChar '[' s
  let r1 :=
    match dropLitCI "app".data r0 with
    | some ra =>
      match dropWsPlus ra with
      | some rb => rb
      | none => r0
    | none => r0
  let r2 ← matchOeidLitFrom r1
  let t := r2.takeWhile (fun c => c ≠ ']')
  let _ ← matchChar ']' (r2.dropWhile (fun c => c ≠ ']'))
  if ht : t = [] then none else some (eidCapture t ht)

/-- `preserved_id` (line 149): the stripped extracted id if a token is
present and its strip is truthy, else the `outlook_event_id` argument. -/
def preservedId (curHtml : List Char) (outlook_event_id : String) : String :=
  match scanFirst matchEidFrom curHtml with
  | some e => if pyStrip e = [] then outlook_event_id else ⟨pyStrip e⟩
  | none => outlook_event_id

/-- The freshly rendered block (lines 170-178). -/
def renderManagerBlock (manager_name preserved_id : String) : String :=
  "<table role='presentation' style='border-collapse:collapse;border-spacing:0;margin:0;padding:0;'>" ++
  "<tr><td style='font-family:Segoe UI, Arial, sans-serif; font-size:11pt; color:#c00000;'>" ++
  "<b>Meeting Manager: " ++ htmlEscape manager_name ++ "</b><br><br>" ++
  "<b>[App Outlook Event ID: " ++ htmlEscape preserved_id ++ "]</b>" ++
  "</td></tr></table>"

/-- The body transformation performed by `update_outlook_manager_block`
(the GET/PATCH transport around it is I/O): extract the preserved id from
the *original* body, strip every block variant to a fixed point, append
one rendered block. -/
def update_outlook_manager_block_body (manager_name outlook_event_id : String)
    (curHtml : List Char) : List Char :=
  stripAllBlocks curHtml ++
    (renderManagerBlock manager_name (preservedId curHtml outlook_event_id)).data

example : Date.addDays ⟨2025, 6, 12⟩ 1 = ⟨2025, 6, 13⟩ := by decide

example : Date.addDays ⟨2025, 12, 31⟩ 1 = ⟨2026, 1, 1⟩ := by decide

example : Date.addDays ⟨2024, 3, 1⟩ (-1) = ⟨2024, 2, 29⟩ := by decide

example : Date.toIso ⟨2025, 6, 10⟩ = "2025-06-10" := by decide

/-- C1: the claim states that for an all-day event the payload carries an
exclusive end date (last inclusive day plus one), with the June 10-12
scenario yielding end date `2025-06-13`.  Evaluating the embedded create
handler's payload (lines 747-757 pass the raw form date `end_date` for an
all-day event, and `build_graph_event_payload` emits its end argument's
date unchanged) shows the payload end date is the *inclusive* last day
`2025-06-12`, not `2025-06-13`: the code contradicts the claim (and its
own comment "Graph end is exclusive (next day)", the exclusive end it
stores locally, and the exclusive end the Edit-tab PATCH sends). -/
theorem claim_C1_allday_payload_end_is_inclusive :
    (createPayload sampleAllDayJune).start = ⟨"2025-06-10", "Eastern Standard Time"⟩ ∧
    (createPayload sampleAllDayJune).stop = ⟨"2025-06-12", "Eastern Standard Time"⟩ ∧
    (createPayload sampleAllDayJune).isAllDay = some true ∧
    (createPayload sampleAllDayJune).showAs = "free" ∧
    "2025-06-12" ≠ "2025-06-13" := by
  refine ⟨rfl, rfl, rfl, rfl, by decide⟩

/-- C2 counterexample: the claim states that the end stored in the local
events row for an all-day event is the *inclusive* last day.  For the
all-day June 10-12 input the row built at lines 789-807 stores the end
instant midnight of June *13* (the exclusive `end_base + timedelta(days=1)`
computed at line 687), not June 12. -/
theorem claim_C2_stored_end_is_exclusive_counterexample :
    (createInsertRow sampleAllDayJune none "2025-06-01T00:00:00").end_dt_local =
      ⟨⟨2025, 6, 13⟩, ⟨0, 0, 0⟩⟩ ∧
    (⟨2025, 6, 13⟩ : Date) ≠ ⟨2025, 6, 12⟩ := by
  constructor
  · show (create_start_end_local sampleAllDayJune).2 = _
    decide
  · decide

/-- C2 amended: for all-day events the persisted end instant is the
*exclusive* last-day-plus-one at local midnight; the inclusive-to-exclusive
conversion happens in the submission handler (lines 684-687), not in the
payload builder (which emits its all-day end argument's date unchanged),
and it is inverted (minus one day) in the Edit-tab date seeding
(line 959), not in the delta mapping. -/
theorem claim_C2_amended_exclusive_end_conversion_points :
    ∀ (i : CreateInput) (cid : Option String) (now : String) (endL : DateTime)
      (subj body tz : String) (sdt : PyDT) (locs : Option String)
      (teams : Bool) (rm : Int) (d : Date),
      (createInsertRow { i with is_all_day := true } cid now).end_dt_local =
        ⟨(pyMaxDate i.end_date i.start_date).addDays 1, ⟨0, 0, 0⟩⟩ ∧
      (build_graph_event_payload subj body tz sdt (.d d) true locs teams rm).stop.dateTime =
        d.toIso ∧
      editSeedEndDate true endL = endL.date.addDays (-1) := by
  intro i cid now endL subj body tz sdt locs teams rm d
  refine ⟨?_, ?_, ?_⟩
  · show (create_start_end_local _).2 = _
    simp [create_start_end_local]
  · simp [build_graph_event_payload, PyDT.toDateOnly]
  · simp [editSeedEndDate]

/-- C9: a timed submission whose end instant is less than or equal to its
start instant (and which passes the earlier purely-local form checks) is
rejected with the end-before-start error, and the returned trace contains
no external calendar or store effect (`effects = []`): the check at
lines 691-693 runs before the lookup-table inserts, the Graph token/create
calls, and the Supabase insert. -/
theorem claim_C9_timed_end_le_start_rejected_before_effects
    (i : CreateInput) (cid : Option String) (ok : Bool) (now : String)
    (hgate : ¬(i.event_type = .virtual ∧ i.virtual_link = "" ∧ ¬i.confirm_no_link))
    (hval : createValidationErrs i = [])
    (hta : i.is_all_day = false)
    (hle : DateTime.leB (create_start_end_local i).2 (create_start_end_local i).1 = true) :
    createSubmit i cid ok now =
      ⟨[], .rejected ["End date/time must be after the start date/time. Please adjust and resubmit."]⟩ := by
  unfold createSubmit
  rw [if_neg hgate, if_neg (by simp [hval])]
  rw [if_pos ⟨by simp [hta], hle⟩]

/-- Witness for C9 at a concrete input: an in-person timed event with
equal start and end instants. -/
theorem claim_C9_witness :
    createSubmit sampleTimedEqual none true "2025-06-01T00:00:00" =
      ⟨[], .rejected ["End date/time must be after the start date/time. Please adjust and resubmit."]⟩ :=
  claim_C9_timed_end_le_start_rejected_before_effects sampleTimedEqual none true
    "2025-06-01T00:00:00" (by decide) (by decide) (by decide) (by decide)

example :
    parse_graph_dt_to_utc (some ⟨some "2025-09-01T09:00:00.0000000", some "Eastern Standard Time"⟩) =
      some "2025-09-01T09:00:00+00:00" := by decide

example :
    parse_graph_dt_to_utc (some ⟨some "2025-09-01T05:30:00-04:00", none⟩) =
      some "2025-09-01T09:30:00+00:00" := by decide

example : parse_graph_dt_to_utc (some ⟨some "2025-06-10", none⟩) = some "2025-06-10T00:00:00+00:00" := by decide

example : parse_graph_dt_to_utc (some ⟨some "garbage", none⟩) = none := by decide

theorem setField_preserves_app (r : EventsRow) (kv : String × Val)
    (h1 : kv.1 ≠ "meeting_manager_name") (h2 : kv.1 ≠ "meeting_manager_email")
    (h3 : kv.1 ≠ "accreditation_required") (h4 : kv.1 ≠ "client") :
    (setField r kv).meeting_manager_name = r.meeting_manager_name ∧
    (setField r kv).meeting_manager_email = r.meeting_manager_email ∧
    (setField r kv).accreditation_required = r.accreditation_required ∧
    (setField r kv).client = r.client := by
  obtain ⟨k, v⟩ := kv
  simp only at h1 h2 h3 h4
  cases v <;> simp only [setField] <;> split_ifs <;> simp_all

theorem applyUpdates_preserves_app (kvs : List (String × Val)) :
    ∀ r : EventsRow,
      (∀ kv ∈ kvs, kv.1 ≠ "meeting_manager_name" ∧ kv.1 ≠ "meeting_manager_email" ∧
        kv.1 ≠ "accreditation_required" ∧ kv.1 ≠ "client") →
      (applyUpdates r kvs).meeting_manager_name = r.meeting_manager_name ∧
      (applyUpdates r kvs).meeting_manager_email = r.meeting_manager_email ∧
      (applyUpdates r kvs).accreditation_required = r.accreditation_required ∧
      (applyUpdates r kvs).client = r.client := by
  induction kvs with
  | nil => intro r _; exact ⟨rfl, rfl, rfl, rfl⟩
  | cons kv rest ih =>
    intro r h
    have hkv := h kv (List.mem_cons_self _ _)
    have hrest := fun x hx => h x (List.mem_cons_of_mem _ hx)
    have hstep := setField_preserves_app r kv hkv.1 hkv.2.1 hkv.2.2.1 hkv.2.2.2
    have htail := ih (setField r kv) hrest
    have heq : applyUpdates r (kv :: rest) = applyUpdates (setField r kv) rest := rfl
    rw [heq]
    exact ⟨htail.1.trans hstep.1, htail.2.1.trans hstep.2.1,
      htail.2.2.1.trans hstep.2.2.1, htail.2.2.2.trans hstep.2.2.2⟩

theorem mapGraph_keys (g : GraphEvent) :
    ∀ kv ∈ map_graph_event_to_row_updates g,
      kv.1 = "subject" ∨ kv.1 = "is_all_day" ∨ kv.1 = "start_dt_utc" ∨
      kv.1 = "end_dt_utc" ∨ kv.1 = "location" ∨ kv.1 = "virtual_link" := by
  intro kv h
  unfold map_graph_event_to_row_updates at h
  simp only [List.mem_append, List.mem_singleton] at h
  rcases h with (((((h | h) | h) | h) | h) | h) <;>
    (repeat' split at h) <;> simp_all

/-- C5: the bulk-sync per-record merge (lines 1496-1501) applies
`map_graph_event_to_row_updates g` plus an `updated_at` stamp to the
matched row; for every Graph change record and every starting row the
app-owned columns (manager name, manager email, accreditation flag,
client) are unchanged by the merge. -/
theorem claim_C5_delta_merge_preserves_app_owned (g : GraphEvent) (r : EventsRow)
    (now : String) :
    (applyUpdates r (map_graph_event_to_row_updates g ++ [("updated_at", Val.s now)])).meeting_manager_name =
      r.meeting_manager_name ∧
    (applyUpdates r (map_graph_event_to_row_updates g ++ [("updated_at", Val.s now)])).meeting_manager_email =
      r.meeting_manager_email ∧
    (applyUpdates r (map_graph_event_to_row_updates g ++ [("updated_at", Val.s now)])).accreditation_required =
      r.accreditation_required ∧
    (applyUpdates r (map_graph_event_to_row_updates g ++ [("updated_at", Val.s now)])).client =
      r.client := by
  apply applyUpdates_preserves_app
  intro kv hm
  rcases List.mem_append.mp hm with hin | hupd
  · rcases mapGraph_keys g kv hin with h | h | h | h | h | h <;> rw [h] <;>
      exact ⟨by decide, by decide, by decide, by decide⟩
  · have : kv = ("updated_at", Val.s now) := by simpa using hupd
    rw [this]
    exact ⟨by simp, by simp, by simp, by simp⟩

theorem parse_some_source {x : Option GraphDateTimeRaw} {u : String}
    (h : parse_graph_dt_to_utc x = some u) :
    ∃ o, x = some o ∧ ∃ raw, o.dateTime = some raw ∧ raw ≠ "" := by
  cases x with
  | none => simp [parse_graph_dt_to_utc] at h
  | some o =>
    refine ⟨o, rfl, ?_⟩
    cases ho : o.dateTime with
    | none => rw [parse_graph_dt_to_utc, ho] at h; cases h
    | some raw =>
      refine ⟨raw, rfl, ?_⟩
      intro hraw
      rw [parse_graph_dt_to_utc, ho, hraw] at h
      simp at h

/-- C10: the delta field mapping always emits `is_all_day` (the truthiness
of the record's `isAllDay`, so a missing flag writes `false`), while
`subject`, `start_dt_utc`, `end_dt_utc`, `location` and `virtual_link`
appear only when the corresponding calendar value is present and
non-empty (so an empty or missing calendar value never clears a stored
value), and the produced update set is never empty. -/
theorem claim_C10_delta_mapping_key_conditions (g : GraphEvent) :
    ("is_all_day", Val.b (g.isAllDay.getD false)) ∈ map_graph_event_to_row_updates g ∧
    (∀ v, ("subject", v) ∈ map_graph_event_to_row_updates g →
      ∃ s, g.subject = some s ∧ s ≠ "" ∧ v = Val.s s) ∧
    (∀ v, ("start_dt_utc", v) ∈ map_graph_event_to_row_updates g →
      ∃ o, g.start = some o ∧ ∃ raw, o.dateTime = some raw ∧ raw ≠ "") ∧
    (∀ v, ("end_dt_utc", v) ∈ map_graph_event_to_row_updates g →
      ∃ o, g.stop = some o ∧ ∃ raw, o.dateTime = some raw ∧ raw ≠ "") ∧
    (∀ v, ("location", v) ∈ map_graph_event_to_row_updates g →
      locVal g ≠ "" ∧ v = Val.s (locVal g)) ∧
    (∀ v, ("virtual_link", v) ∈ map_graph_event_to_row_updates g →
      ∃ om, g.onlineMeeting = some om ∧ ∃ j, om.joinUrl = some j ∧ j ≠ "" ∧ v = Val.s j) ∧
    map_graph_event_to_row_updates g ≠ [] := by
  refine ⟨?_, ?_, ?_, ?_, ?_, ?_, ?_⟩
  · unfold map_graph_event_to_row_updates
    simp [List.mem_append]
  · intro v h
    unfold map_graph_event_to_row_updates at h
    simp only [List.mem_append, List.mem_singleton] at h
    rcases h with (((((h | h) | h) | h) | h) | h) <;> (repeat' split at h) <;> simp_all
  · intro v h
    unfold map_graph_event_to_row_updates at h
    simp only [List.mem_append, List.mem_singleton] at h
    rcases h with (((((h | h) | h) | h) | h) | h)
    · (repeat' split at h) <;> simp_all
    · simp_all
    · rcases hp : parse_graph_dt_to_utc g.start with _ | u
      · rw [hp] at h; simp at h
      · exact parse_some_source hp
    · (repeat' split at h) <;> simp_all
    · (repeat' split at h) <;> simp_all
    · (repeat' split at h) <;> simp_all
  · intro v h
    unfold map_graph_event_to_row_updates at h
    simp only [List.mem_append, List.mem_singleton] at h
    rcases h with (((((h | h) | h) | h) | h) | h)
    · (repeat' split at h) <;> simp_all
    · simp_all
    · (repeat' split at h) <;> simp_all
    · rcases hp : parse_graph_dt_to_utc g.stop with _ | u
      · rw [hp] at h; simp at h
      · exact parse_some_source hp
    · (repeat' split at h) <;> simp_all
    · (repeat' split at h) <;> simp_all
  · intro v h
    unfold map_graph_event_to_row_updates at h
    simp only [List.mem_append, List.mem_singleton] at h
    rcases h with (((((h | h) | h) | h) | h) | h) <;> (repeat' split at h) <;> simp_all
  · intro v h
    unfold map_graph_event_to_row_updates at h
    simp only [List.mem_append, List.mem_singleton] at h
    rcases h with (((((h | h) | h) | h) | h) | h) <;> (repeat' split at h) <;> simp_all
  · intro hempty
    have hmem : ("is_all_day", Val.b (g.isAllDay.getD false)) ∈ map_graph_event_to_row_updates g := by
      unfold map_graph_event_to_row_updates
      simp [List.mem_append]
    rw [hempty] at hmem
    cases hmem

/-- C7: with a linked event and secrets present, the delete handler
attempts the calendar deletion first and deletes the local row afterwards
regardless of the DELETE status (a non-204/404 status only adds a
warning); status 404 produces exactly the trace of status 204; and for
every configuration in which the token is obtained (or the calendar step
is skipped), the local row delete — which cascades to the dependent
notifications — is part of the trace. -/
theorem claim_C7_delete_local_row_regardless (id : String) (st : Nat) (hid : id ≠ "") :
    delete_event_flow (some id) false true st =
      ([.graphTokenAcq, .graphDelete st] ++
        (if st = 204 ∨ st = 404 then [] else [.warnOutlook]) ++ [.dbDeleteRow], .success) ∧
    delete_event_flow (some id) false true 404 =
      ([.graphTokenAcq, .graphDelete 404, .dbDeleteRow], .success) ∧
    delete_event_flow (some id) false true 204 =
      ([.graphTokenAcq, .graphDelete 204, .dbDeleteRow], .success) ∧
    ∀ (oid : Option String) (ms : Bool),
      DelEff.dbDeleteRow ∈ (delete_event_flow oid ms true st).1 := by
  refine ⟨?_, ?_, ?_, ?_⟩
  · simp [delete_event_flow, hid]
  · simp [delete_event_flow, hid]
  · simp [delete_event_flow, hid]
  · intro oid ms
    unfold delete_event_flow
    split_ifs <;> simp_all

/-- Witness for C7 at a concrete event id and an error status. -/
theorem claim_C7_witness :
    delete_event_flow (some "EVT123") false true 500 =
      ([.graphTokenAcq, .graphDelete 500, .warnOutlook, .dbDeleteRow], .success) ∧
    delete_event_flow (some "EVT123") false true 404 =
      ([.graphTokenAcq, .graphDelete 404, .dbDeleteRow], .success) :=
  ⟨((claim_C7_delete_local_row_regardless "EVT123" 500 (by decide)).1).trans (by decide),
   (claim_C7_delete_local_row_regardless "EVT123" 500 (by decide)).2.1⟩

/-- C4: the claim (the three sub-operations are independent; a null
calendar id never blocks the local row update) fails on the code.  For a
linked event with a successful PATCH and manager-block refresh, the call
to the undefined `upsert_outlook_client_and_accreditation` raises inside
the `try` shared by all three sub-operations, so the local-store update is
never attempted and the handler reports failure; a core-PATCH failure
likewise prevents the later sub-operations; and for a null calendar id the
handler skips the local row update entirely (it is nested under the
calendar-id check) while reporting success. -/
theorem claim_C4_save_suboperations_not_independent :
    saveChanges sampleSaveLinked =
      ([.graphTokenAcq, .patchCore, .mgrBlock true, .metaBlockCall],
       .stoppedError "Update failed: name 'upsert_outlook_client_and_accreditation' is not defined") ∧
    SaveEff.dbUpdate ∉ (saveChanges sampleSaveLinked).1 ∧
    saveChanges { sampleSaveLinked with patchOk := false } =
      ([.graphTokenAcq, .patchCore], .stoppedError "Update failed: Graph PATCH") ∧
    SaveEff.dbUpdate ∉ (saveChanges { sampleSaveLinked with patchOk := false }).1 ∧
    saveChanges sampleSaveOrphan = ([], .success) ∧
    SaveEff.dbUpdate ∉ (saveChanges sampleSaveOrphan).1 := by
  refine ⟨by decide, by decide, by decide, by decide, by decide, by decide⟩

theorem walkPages_requests (first : DeltaReq) (pages : List DeltaPage) :
    ∀ r ∈ (walkPages first pages).map Prod.fst, r = first ∨ ∃ u, r = DeltaReq.byUrl u := by
  induction pages generalizing first with
  | nil => intro r h; simp [walkPages] at h
  | cons p rest ih =>
    intro r h
    rw [walkPages] at h
    simp only [List.map_cons, List.mem_cons] at h
    rcases h with h | h
    · exact Or.inl h
    · rcases hnl : p.nextLink with _ | nl
      · rw [hnl] at h; simp at h
      · rw [hnl] at h
        by_cases he : nl = ""
        · simp [he] at h
        · simp only [he, if_false, reduceCtorEq] at h
          rcases ih (.byUrl nl) r h with h' | h'
          · exact Or.inr ⟨nl, h'⟩
          · exact Or.inr h'

theorem walkPages_consumes_chain (plast : DeltaPage) (hlast : plast.nextLink = none) :
    ∀ (ps : List DeltaPage) (first : DeltaReq),
      (∀ q ∈ ps, (q.nextLink.getD "") ≠ "") →
      (walkPages first (ps ++ [plast])).map Prod.snd = ps ++ [plast] := by
  intro ps
  induction ps with
  | nil =>
    intro first _
    simp [walkPages, hlast]
  | cons q qs ih =>
    intro first hchain
    have hq := hchain q (List.mem_cons_self _ _)
    rcases hnl : q.nextLink with _ | nl
    · rw [hnl] at hq; simp at hq
    · rw [hnl] at hq
      simp only [Option.getD_some] at hq
      have : walkPages first ((q :: qs) ++ [plast]) =
          (first, q) :: walkPages (.byUrl nl) (qs ++ [plast]) := by
        rw [List.cons_append, walkPages, hnl]
        simp [hq]
      rw [this]
      simp only [List.map_cons]
      rw [ih (.byUrl nl) (fun x hx => hchain x (List.mem_cons_of_mem _ hx))]
      simp

theorem graph_delta_events_is_walk (s e dl : Option String) (pages : List DeltaPage) :
    ∃ first, graph_delta_events s e dl pages = walkPages first pages := by
  unfold graph_delta_events
  rcases dl with _ | v
  · exact ⟨_, rfl⟩
  · by_cases hv : v = ""
    · simp only [hv]
      exact ⟨.windowed (windowParams s e), by simp⟩
    · simp only [hv]
      exact ⟨.byUrl v, by simp [hv]⟩

theorem lastDeltaOf_append_terminal (ps : List DeltaPage) (plast : DeltaPage)
    (d : String) (hdelta : plast.deltaLink = some d) (hd : d ≠ "") :
    lastDeltaOf (ps ++ [plast]) = some d := by
  unfold lastDeltaOf
  rw [List.foldl_append]
  simp [hdelta, hd]

/-- C8: a run with no stored cursor issues the windowed initial query
(both window parameters present); after a pass that drains a chain of
pages ending in a page with a terminal delta link, exactly one cursor
upsert (keyed by scope `"default"`) with that terminal token is
performed; and a run with a stored cursor issues the stored URL itself
first and issues only opaque-URL requests — never a windowed one. -/
theorem claim_C8_delta_cursor_protocol :
    (∀ (w1 w2 : String) (lookup : String → Option Nat) (now : String)
        (p : DeltaPage) (ps : List DeltaPage),
      w1 ≠ "" → w2 ≠ "" →
      (bulk_sync_now none w1 w2 lookup now (p :: ps)).requests.head? =
        some (.windowed [("startDateTime", w1), ("endDateTime", w2)])) ∧
    (∀ (stored : Option String) (w1 w2 : String) (lookup : String → Option Nat)
        (now : String) (ps : List DeltaPage) (plast : DeltaPage) (d : String),
      (∀ q ∈ ps, (q.nextLink.getD "") ≠ "") → plast.nextLink = none →
      plast.deltaLink = some d → d ≠ "" →
      (bulk_sync_now stored w1 w2 lookup now (ps ++ [plast])).saves = [("default", d)]) ∧
    (∀ (c w1 w2 : String) (lookup : String → Option Nat) (now : String)
        (p : DeltaPage) (ps : List DeltaPage),
      c ≠ "" →
      (bulk_sync_now (some c) w1 w2 lookup now (p :: ps)).requests.head? =
        some (.byUrl c) ∧
      ∀ r ∈ (bulk_sync_now (some c) w1 w2 lookup now (p :: ps)).requests,
        ∃ u, r = DeltaReq.byUrl u) := by
  refine ⟨?_, ?_, ?_⟩
  · intro w1 w2 lookup now p ps hw1 hw2
    simp [bulk_sync_now, bulkPairs, bulkStartIso, bulkEndIso, graph_delta_events,
      walkPages, windowParams, hw1, hw2]
  · intro stored w1 w2 lookup now ps plast d hchain hlast hdelta hd
    obtain ⟨first, hfe⟩ :=
      graph_delta_events_is_walk (bulkStartIso stored w1) (bulkEndIso stored w2) stored
        (ps ++ [plast])
    have hsnd : (bulkPairs stored w1 w2 (ps ++ [plast])).map Prod.snd = ps ++ [plast] := by
      rw [bulkPairs, hfe]
      exact walkPages_consumes_chain plast hlast ps first hchain
    show (match lastDeltaOf ((bulkPairs stored w1 w2 (ps ++ [plast])).map Prod.snd) with
      | some d => [("default", d)]
      | none => ([] : List (String × String))) = [("default", d)]
    rw [hsnd, lastDeltaOf_append_terminal ps plast d hdelta hd]
  · intro c w1 w2 lookup now p ps hc
    constructor
    · simp [bulk_sync_now, bulkPairs, bulkStartIso, bulkEndIso, graph_delta_events,
        walkPages, hc]
    · intro r hr
      have hpairs : bulkPairs (some c) w1 w2 (p :: ps) =
          walkPages (.byUrl c) (p :: ps) := by
        simp [bulkPairs, graph_delta_events, hc]
      rw [show (bulk_sync_now (some c) w1 w2 lookup now (p :: ps)).requests =
          (bulkPairs (some c) w1 w2 (p :: ps)).map Prod.fst from rfl, hpairs] at hr
      rcases walkPages_requests (.byUrl c) (p :: ps) r hr with h | h
      · exact ⟨c, h⟩
      · exact h

/-- Witness for C8: a first run with no cursor over a single page with a
terminal delta link, and a resumed run from that cursor. -/
theorem claim_C8_witness :
    (bulk_sync_now none "2025-01-01T00:00:00+00:00" "2026-06-30T00:00:00+00:00"
        (fun _ => none) "now" [⟨[], none, some "CURSOR1"⟩]).requests.head? =
      some (.windowed [("startDateTime", "2025-01-01T00:00:00+00:00"),
        ("endDateTime", "2026-06-30T00:00:00+00:00")]) ∧
    (bulk_sync_now none "2025-01-01T00:00:00+00:00" "2026-06-30T00:00:00+00:00"
        (fun _ => none) "now" ([] ++ [⟨[], none, some "CURSOR1"⟩])).saves =
      [("default", "CURSOR1")] ∧
    (bulk_sync_now (some "CURSOR1") "w1" "w2" (fun _ => none) "now"
        [⟨[], none, some "CURSOR2"⟩]).requests.head? = some (.byUrl "CURSOR1") :=
  ⟨claim_C8_delta_cursor_protocol.1 _ _ _ _ _ _ (by decide) (by decide),
   claim_C8_delta_cursor_protocol.2.1 none _ _ _ _ [] ⟨[], none, some "CURSOR1"⟩ "CURSOR1"
     (by intro q hq; cases hq) rfl rfl (by decide),
   (claim_C8_delta_cursor_protocol.2.2 "CURSOR1" "w1" "w2" _ _ _ [] (by decide)).1⟩

/-! ### Consumption lemmas: every pattern match consumes at least one
character, and every helper consumes at most the input. -/
theorem len_dropWhile_le (p : Char → Bool) : ∀ l : List Char, (l.dropWhile p).length ≤ l.length := by
  intro l
  induction l with
  | nil => simp
  | cons c r ih =>
    rw [List.dropWhile]
    split
    · exact le_trans ih (by simp)
    · simp

theorem dropLitCI_length : ∀ (p s t : List Char), dropLitCI p s = some t → t.length + p.length = s.length := by
  intro p
  induction p with
  | nil =>
    intro s t h
    simp only [dropLitCI, Option.some.injEq] at h
    subst h
    simp
  | cons a ps ih =>
    intro s t h
    cases s with
    | nil => simp [dropLitCI] at h
    | cons c cs =>
      simp only [dropLitCI] at h
      split at h
      · have := ih cs t h
        simp only [List.length_cons]
        omega
      · cases h

theorem dropLitCI_le {p s t : List Char} (h : dropLitCI p s = some t) : t.length ≤ s.length := by
  have := dropLitCI_length p s t h
  omega

theorem dropLitCI_lt {p s t : List Char} (hp : p ≠ []) (h : dropLitCI p s = some t) :
    t.length < s.length := by
  have := dropLitCI_length p s t h
  have hp' : 0 < p.length := List.length_pos.mpr hp
  omega

theorem dropWsPlus_lt {s t : List Char} (h : dropWsPlus s = some t) : t.length < s.length := by
  cases s with
  | nil => simp [dropWsPlus] at h
  | cons c r =>
    simp only [dropWsPlus] at h
    split at h
    · cases h
      calc (r.dropWhile isWs).length ≤ r.length := len_dropWhile_le _ _
        _ < (c :: r).length := by simp
    · cases h

theorem dropWsStar_le (s : List Char) : (dropWsStar s).length ≤ s.length :=
  len_dropWhile_le _ _

theorem matchLabelFrom_lt {s t : List Char} (h : matchLabelFrom s = some t) :
    t.length < s.length := by
  simp only [matchLabelFrom, Option.bind_eq_bind, Option.bind_eq_some] at h
  obtain ⟨r1, h1, h2⟩ := h
  calc t.length ≤ (dropWsStar r1).length := dropLitCI_le h2
    _ ≤ r1.length := dropWsStar_le r1
    _ < s.length := dropLitCI_lt (by decide) h1

theorem matchOeidLitFrom_lt {s t : List Char} (h : matchOeidLitFrom s = some t) :
    t.length < s.length := by
  simp only [matchOeidLitFrom, Option.bind_eq_bind, Option.bind_eq_some] at h
  obtain ⟨r1, h1, r2, h2, r3, h3, r4, h4, h5⟩ := h
  have := dropLitCI_lt (p := "outlook".data) (by decide) h1
  have := dropWsPlus_lt h2
  have := dropLitCI_le h3
  have := dropWsPlus_lt h4
  have := dropLitCI_le h5
  omega

theorem matchChar_lt {ch : Char} {s t : List Char} (h : matchChar ch s = some t) :
    t.length < s.length := by
  cases s with
  | nil => simp [matchChar] at h
  | cons c r =>
    simp only [matchChar] at h
    split at h
    · cases h; simp
    · cases h

theorem scanFirst_lt {m : List Char → Option (List Char)}
    (hm : ∀ s t, m s = some t → t.length < s.length) :
    ∀ s t, scanFirst m s = some t → t.length < s.length := by
  intro s
  induction s with
  | nil =>
    intro t h
    simp only [scanFirst] at h
    exact hm [] t h
  | cons c r ih =>
    intro t h
    simp only [scanFirst] at h
    cases hc : m (c :: r) with
    | some v => rw [hc] at h; cases h; exact hm _ _ hc
    | none =>
      rw [hc] at h
      have := ih t h
      simp only [List.length_cons]
      omega

theorem matchTokenChain_lt {s t : List Char} (h : matchTokenChain s = some t) :
    t.length < s.length := by
  simp only [matchTokenChain, Option.bind_eq_bind, Option.bind_eq_some] at h
  obtain ⟨r1, h1, r2, h2, h3⟩ := h
  have := scanFirst_lt (fun a b => matchChar_lt) _ _ h1
  have := scanFirst_lt (fun a b => matchOeidLitFrom_lt) _ _ h2
  have := scanFirst_lt (fun a b => matchChar_lt) _ _ h3
  omega

theorem matchInlineFrom_lt {s t : List Char} (h : matchInlineFrom s = some t) :
    t.length < s.length := by
  simp only [matchInlineFrom, Option.bind_eq_bind, Option.bind_eq_some, Option.pure_def,
    Option.some.injEq] at h
  obtain ⟨r1, h1, r2, h2, h3⟩ := h
  have hl1 := matchLabelFrom_lt h1
  have hl2 := matchTokenChain_lt h2
  have hl3 : (r2.drop 50).length ≤ r2.length := by
    rw [List.length_drop]
    omega
  have ht : t.length ≤ r2.length := by
    rw [← h3]
    exact hl3
  omega

theorem tryTag_lt {tag s r : List Char} (htag : tag ≠ []) (h : tryTag tag s = some r) :
    r.length < s.length := by
  unfold tryTag at h
  split at h
  · next r' heq =>
    split at h
    · cases h; exact dropLitCI_lt htag heq
    · cases h
  · cases h

theorem pickTag_lt {s tag r : List Char} (h : pickTag s = some (tag, r)) :
    r.length < s.length := by
  unfold pickTag at h
  rcases h1 : tryTag "p".data s with _ | r1 <;> rw [h1] at h
  · rcases h2 : tryTag "div".data s with _ | r2 <;> rw [h2] at h
    · rcases h3 : tryTag "span".data s with _ | r3 <;> rw [h3] at h
      · rcases h4 : tryTag "td".data s with _ | r4 <;> rw [h4] at h
        · cases h
        · simp only [Option.some.injEq, Prod.mk.injEq] at h
          obtain ⟨-, hr⟩ := h
          subst hr
          exact tryTag_lt (by decide) h4
      · simp only [Option.some.injEq, Prod.mk.injEq] at h
        obtain ⟨-, hr⟩ := h
        subst hr
        exact tryTag_lt (by decide) h3
    · simp only [Option.some.injEq, Prod.mk.injEq] at h
      obtain ⟨-, hr⟩ := h
      subst hr
      exact tryTag_lt (by decide) h2
  · simp only [Option.some.injEq, Prod.mk.injEq] at h
    obtain ⟨-, hr⟩ := h
    subst hr
    exact tryTag_lt (by decide) h1

theorem matchTableFrom_lt {s t : List Char} (h : matchTableFrom s = some t) :
    t.length < s.length := by
  simp only [matchTableFrom, Option.bind_eq_bind, Option.bind_eq_some] at h
  obtain ⟨r1, h1, h2⟩ := h
  have hr1 := dropLitCI_lt (p := "<table".data) (by decide) h1
  split at h2
  · simp only [Option.bind_eq_bind, Option.bind_eq_some] at h2
    obtain ⟨r2, hg, r3, hl, r4, htk, hc⟩ := h2
    have := scanFirst_lt (fun a b => matchChar_lt) _ _ hg
    have := scanFirst_lt (fun a b => matchLabelFrom_lt) _ _ hl
    have := matchTokenChain_lt htk
    have := scanFirst_lt (fun a b => dropLitCI_lt (by decide)) _ _ hc
    omega
  · cases h2

theorem matchBlockFrom_lt {s t : List Char} (h : matchBlockFrom s = some t) :
    t.length < s.length := by
  simp only [matchBlockFrom, Option.bind_eq_bind, Option.bind_eq_some] at h
  obtain ⟨r0, h0, p, hpick, h2⟩ := h
  obtain ⟨tag, r1⟩ := p
  have hr0 := matchChar_lt h0
  have hr1 := pickTag_lt hpick
  simp only [Option.bind_eq_bind, Option.bind_eq_some] at h2
  obtain ⟨r2, hgt, r3, hl, r4, htk, hc⟩ := h2
  have hr2 : r2.length < r1.length := by
    have h' := matchChar_lt hgt
    have h'' := len_dropWhile_le (fun c => decide (c ≠ '>')) r1
    calc r2.length < (r1.dropWhile (fun c => c ≠ '>')).length := h'
      _ ≤ r1.length := by simpa using h''
  have := scanFirst_lt (fun a b => matchLabelFrom_lt) _ _ hl
  have := matchTokenChain_lt htk
  have hcl : t.length < r4.length := by
    refine scanFirst_lt (fun a b hb => ?_) _ _ hc
    exact dropLitCI_lt (by simp) hb
  omega

/-! ### The substitution loop reaches a fixed point with no remaining
inline-core match. -/
theorem subAllF_length_le {m : List Char → Option (List Char)}
    (hm : ∀ s t, m s = some t → t.length < s.length) :
    ∀ (f : Nat) (s : List Char), (subAllF m f s).length ≤ s.length := by
  intro f
  induction f with
  | zero => intro s; simp [subAllF]
  | succ f ih =>
    intro s
    cases s with
    | nil => simp [subAllF]
    | cons c r =>
      cases hc : m (c :: r) with
      | some suf =>
        have h1 := hm _ _ hc
        have h2 := ih suf
        simp only [subAllF, hc]
        simp only [List.length_cons] at h1 ⊢
        omega
      | none =>
        simp only [subAllF, hc, List.length_cons]
        have := ih r
        omega

theorem subAllF_eq_or_lt {m : List Char → Option (List Char)}
    (hm : ∀ s t, m s = some t → t.length < s.length) :
    ∀ (f : Nat) (s : List Char),
      subAllF m f s = s ∨ (subAllF m f s).length < s.length := by
  intro f
  induction f with
  | zero => intro s; left; simp [subAllF]
  | succ f ih =>
    intro s
    cases s with
    | nil => left; simp [subAllF]
    | cons c r =>
      cases hc : m (c :: r) with
      | some suf =>
        right
        have h1 := hm _ _ hc
        have h2 := subAllF_length_le hm f suf
        simp only [subAllF, hc]
        simp only [List.length_cons] at h1 ⊢
        omega
      | none =>
        rcases ih r with h | h
        · left
          simp only [subAllF, hc, h]
        · right
          simp only [subAllF, hc, List.length_cons]
          omega

theorem subAllF_id_no_match {m : List Char → Option (List Char)}
    (hm : ∀ s t, m s = some t → t.length < s.length) :
    ∀ (f : Nat) (s : List Char), s.length ≤ f → subAllF m f s = s →
      scanFirst m s = none := by
  intro f
  induction f with
  | zero =>
    intro s hlen _
    have hs : s = [] := List.length_eq_zero.mp (Nat.le_zero.mp hlen)
    subst hs
    simp only [scanFirst]
    cases hc : m [] with
    | some t => exact absurd (hm _ _ hc) (by simp)
    | none => rfl
  | succ f ih =>
    intro s hlen heq
    cases s with
    | nil =>
      simp only [scanFirst]
      cases hc : m [] with
      | some t => exact absurd (hm _ _ hc) (by simp)
      | none => rfl
    | cons c r =>
      cases hc : m (c :: r) with
      | some suf =>
        exfalso
        simp only [subAllF, hc] at heq
        have h1 := hm _ _ hc
        have h2 := subAllF_length_le hm f suf
        have : (subAllF m f suf).length < (c :: r).length := by
          simp only [List.length_cons] at h1 ⊢
          omega
        rw [heq] at this
        omega
      | none =>
        simp only [subAllF, hc, List.cons.injEq, true_and] at heq
        have hr := ih r (by simp only [List.length_cons] at hlen; omega) heq
        simp only [scanFirst, hc]
        exact hr

theorem subAll_length_le {m : List Char → Option (List Char)}
    (hm : ∀ s t, m s = some t → t.length < s.length) (s : List Char) :
    (subAll m s).length ≤ s.length :=
  subAllF_length_le hm s.length s

theorem subAll_eq_or_lt {m : List Char → Option (List Char)}
    (hm : ∀ s t, m s = some t → t.length < s.length) (s : List Char) :
    subAll m s = s ∨ (subAll m s).length < s.length :=
  subAllF_eq_or_lt hm s.length s

theorem subAll_id_no_match {m : List Char → Option (List Char)}
    (hm : ∀ s t, m s = some t → t.length < s.length) (s : List Char)
    (h : subAll m s = s) : scanFirst m s = none :=
  subAllF_id_no_match hm s.length s le_rfl h

theorem roundStrip_eq_or_lt (s : List Char) :
    roundStrip s = s ∨ (roundStrip s).length < s.length := by
  have hT : ∀ a b, matchTableFrom a = some b → b.length < a.length := fun a b => matchTableFrom_lt
  have hB : ∀ a b, matchBlockFrom a = some b → b.length < a.length := fun a b => matchBlockFrom_lt
  have hI : ∀ a b, matchInlineFrom a = some b → b.length < a.length := fun a b => matchInlineFrom_lt
  unfold roundStrip
  rcases subAll_eq_or_lt hI (subAll matchBlockFrom (subAll matchTableFrom s)) with h3 | h3
  · rw [h3]
    rcases subAll_eq_or_lt hB (subAll matchTableFrom s) with h2 | h2
    · rw [h2]
      rcases subAll_eq_or_lt hT s with h1 | h1
      · left; rw [h1]
      · right; exact h1
    · right
      have := subAll_length_le hT s
      omega
  · right
    have := subAll_length_le hB (subAll matchTableFrom s)
    have := subAll_length_le hT s
    omega

theorem roundStrip_id_inline_none {s : List Char} (h : roundStrip s = s) :
    scanFirst matchInlineFrom s = none := by
  have hT : ∀ a b, matchTableFrom a = some b → b.length < a.length := fun a b => matchTableFrom_lt
  have hB : ∀ a b, matchBlockFrom a = some b → b.length < a.length := fun a b => matchBlockFrom_lt
  have hI : ∀ a b, matchInlineFrom a = some b → b.length < a.length := fun a b => matchInlineFrom_lt
  unfold roundStrip at h
  have l3 := subAll_length_le hI (subAll matchBlockFrom (subAll matchTableFrom s))
  have l2 := subAll_length_le hB (subAll matchTableFrom s)
  have l1 := subAll_length_le hT s
  have hslen : s.length ≤ (subAll matchBlockFrom (subAll matchTableFrom s)).length := by
    have := congrArg List.length h
    omega
  have h1 : subAll matchTableFrom s = s := by
    rcases subAll_eq_or_lt hT s with h1 | h1
    · exact h1
    · exfalso; omega
  rw [h1] at h l2 hslen
  have h2 : subAll matchBlockFrom s = s := by
    rcases subAll_eq_or_lt hB s with h2 | h2
    · exact h2
    · exfalso; omega
  rw [h2] at h
  exact subAll_id_no_match hI s h

theorem stripLoopF_fix : ∀ (f : Nat) (s : List Char), s.length < f →
    roundStrip (stripLoopF f s) = stripLoopF f s := by
  intro f
  induction f with
  | zero => intro s h; omega
  | succ f ih =>
    intro s hlen
    simp only [stripLoopF]
    by_cases he : roundStrip s = s
    · rw [if_pos he]
      exact he
    · rw [if_neg he]
      apply ih
      rcases roundStrip_eq_or_lt s with h | h
      · exact absurd h he
      · omega

/-- After the removal loop no inline manager-block core
(`Meeting\s*Manager:` followed by a bracketed `Outlook Event ID` token)
remains anywhere in the string. -/
theorem stripAllBlocks_no_core (s : List Char) :
    scanFirst matchInlineFrom (stripAllBlocks s) = none :=
  roundStrip_id_inline_none (stripLoopF_fix (s.length + 1) s (by omega))

/-- C3: one application of the manager-block operation rewrites any body
into a stripped prefix (in which no manager-block core — a
`Meeting Manager:` label later followed by a bracketed
`Outlook Event ID` token — occurs) followed by exactly one freshly
rendered block; hence applying the operation `k` times with the same
name and identifier, from any starting body (including bodies already
holding duplicated table / p / div / span / inline block variants),
yields a body containing exactly one manager block, for all `k ≥ 1`. -/
theorem claim_C3_manager_block_idempotent (name arg : String) (body : List Char)
    (k : Nat) (hk : 1 ≤ k) :
    ∃ S eid, (update_outlook_manager_block_body name arg)^[k] body =
      S ++ (renderManagerBlock name eid).data ∧
      scanFirst matchInlineFrom S = none := by
  obtain ⟨j, rfl⟩ : ∃ j, k = j + 1 := ⟨k - 1, by omega⟩
  rw [Function.iterate_succ_apply']
  exact ⟨stripAllBlocks ((update_outlook_manager_block_body name arg)^[j] body),
    preservedId ((update_outlook_manager_block_body name arg)^[j] body) arg,
    rfl, stripAllBlocks_no_core _⟩

/-- Witness for C3 at `k = 1` on a body that already contains a
paragraph-variant manager block. -/
theorem claim_C3_witness :
    1 ≤ 1 ∧
    ∃ S eid,
      (update_outlook_manager_block_body "Alice" "EVT1")^[1]
        "<p>Meeting Manager: Old [Outlook Event ID: EVT0]</p>hello".data =
        S ++ (renderManagerBlock "Alice" eid).data ∧
      scanFirst matchInlineFrom S = none :=
  ⟨le_rfl,
   claim_C3_manager_block_idempotent "Alice" "EVT1"
     "<p>Meeting Manager: Old [Outlook Event ID: EVT0]</p>hello".data 1 le_rfl⟩

/-- C6: when the current body already contains a bracketed
`Outlook Event ID` token whose stripped id is non-empty, the operation
appends a block rendered with that id — the identifier argument is used
only as a fallback, so an argument differing from the embedded token is
ignored (existing token wins). -/
theorem claim_C6_existing_token_wins (name arg : String) (body e : List Char)
    (hfind : scanFirst matchEidFrom body = some e) (hne : pyStrip e ≠ []) :
    preservedId body arg = (⟨pyStrip e⟩ : String) ∧
    update_outlook_manager_block_body name arg body =
      stripAllBlocks body ++ (renderManagerBlock name ⟨pyStrip e⟩).data := by
  have hp : preservedId body arg = (⟨pyStrip e⟩ : String) := by
    unfold preservedId
    rw [hfind]
    simp [hne]
  refine ⟨hp, ?_⟩
  unfold update_outlook_manager_block_body
  rw [hp]

set_option maxRecDepth 100000 in
/-- Witness for C6: the body holds token id `ABC`, the argument is the
different id `XYZ`, and the appended block carries `ABC`. -/
theorem claim_C6_witness :
    preservedId "Hello [Outlook Event ID: ABC] world".data "XYZ" =
      (⟨pyStrip "ABC".data⟩ : String) ∧
    update_outlook_manager_block_body "Alice" "XYZ"
        "Hello [Outlook Event ID: ABC] world".data =
      stripAllBlocks "Hello [Outlook Event ID: ABC] world".data ++
        (renderManagerBlock "Alice" ⟨pyStrip "ABC".data⟩).data :=
  claim_C6_existing_token_wins "Alice" "XYZ" _ _ (by decide) (by decide)
